import Mathlib

/-!
# Verification of the ImgTag media tagger against its specification

Shallow embedding of the core logic of `src/window.py` (class `GifImageTk`
and class `Window`) and `src/util.py`, with theorems settling the frozen
claims about the animated-GIF frame loader, the resize debouncer, the
sidecar tag store and the navigation state machine.

Python strings are modelled as `List Char`; the filesystem of sidecar
files as an association list from path to parsed content; PIL's
multi-frame image handle as a frame count `F` together with a decode-error
predicate `err` (frame `i` fails to decode iff `err i`).
-/

set_option autoImplicit false

namespace ImgTag

/-! ## Animated GIF loader: `GifImageTk` (src/window.py lines 31-122)

The PIL image handle is abstracted by

* `F : Nat` — the number of decodable frames of the source, and
* `err : Nat → Bool` — `err i` holds when decoding (copying) frame `i`
  raises `OSError`/`AttributeError`/`ValueError`.

A loader state tracks the captured-frame list (by source frame index, since
each captured frame is the scaled copy of the frame the handle was
positioned at), the handle's seek position, and the `stopped` flag. -/

structure GifState where
  /-- `self.frames`: indices of the source frames captured, in capture order. -/
  frames : List Nat
  /-- The seek position of `self.image` (PIL keeps the old position when
  `seek` raises `EOFError`). -/
  pos : Nat
  /-- `self.stopped`, read by the animation driver. -/
  stopped : Bool
  /-- `self.image_id`: whether a canvas image item is currently attached. -/
  image_id : Bool
  deriving Repr, DecidableEq

/-- `GifImageTk.continue_load_frame` (lines 65-79): copy the frame at the
current position, append it to `self.frames`, then
`self.image.seek(len(self.frames))`.  Returns `false` on `EOFError` from
the seek or on a decode error from the copy, `true` otherwise. -/
def continue_load_frame (F : Nat) (err : Nat → Bool) (s : GifState) :
    Bool × GifState :=
  if err s.pos || decide (F ≤ s.pos) then
    -- the copy raises: nothing is appended, the error is logged
    (false, s)
  else
    let frames' := s.frames ++ [s.pos]
    if frames'.length < F then
      (true, { s with frames := frames', pos := frames'.length })
    else
      -- `seek(len(self.frames))` raises `EOFError`; the appended frame stays
      (false, { s with frames := frames' })

/-- The `for _ in range(3)` priming loop of `GifImageTk.__init__`
(lines 43-48), with Python's `for`/`else` semantics: the second component
is `true` exactly when no iteration broke, i.e. when the background worker
thread is spawned. -/
def primeLoop (F : Nat) (err : Nat → Bool) : Nat → GifState → GifState × Bool
  | 0, s => (s, true)
  | n + 1, s =>
    match continue_load_frame F err s with
    | (true, s') => primeLoop F err n s'
    | (false, s') => (s', false)

/-- The freshly constructed loader state before priming. -/
def initState : GifState :=
  { frames := [], pos := 0, stopped := false, image_id := false }

/-- `GifImageTk.__init__` (lines 32-54): prime up to 3 frames
synchronously; spawn the worker iff all 3 priming calls succeeded. -/
def gifInit (F : Nat) (err : Nat → Bool) : GifState × Bool :=
  primeLoop F err 3 initState

/-- When `continue_load_frame` returns `True`, it has appended one frame
and the new frame count is still below `F` (the seek succeeded). -/
theorem continue_load_frame_progress (F : Nat) (err : Nat → Bool) (s : GifState)
    (h : (continue_load_frame F err s).1 = true) :
    (continue_load_frame F err s).2.frames.length = s.frames.length + 1 ∧
      (continue_load_frame F err s).2.frames.length < F := by
  simp only [continue_load_frame] at h ⊢
  split at h
  · simp at h
  · rename_i hcond
    split at h
    · rename_i hlt
      rw [if_neg hcond, if_pos hlt]
      simp only [List.length_append, List.length_cons, List.length_nil] at hlt
      simp only [List.length_append, List.length_cons, List.length_nil]
      exact ⟨by simp, by omega⟩
    · simp at h

/-- `GifImageTk.continue_load` (lines 80-83), the body of the background
worker: `while self.continue_load_frame(): pass`.  Note that it checks no
stop flag.  Terminates because each successful call grows `self.frames`
towards `F`. -/
def continue_load (F : Nat) (err : Nat → Bool) (s : GifState) : GifState :=
  let r := continue_load_frame F err s
  if h : r.1 = true then continue_load F err r.2 else r.2
termination_by F - s.frames.length
decreasing_by
  have := continue_load_frame_progress F err s h
  omega

/-- `GifImageTk.destroy` (lines 84-92): set the stop flag, delete the
canvas item, reset `self.frames` to a fresh empty list.  The seek position
of the shared PIL handle is untouched. -/
def gifDestroy (s : GifState) : GifState :=
  { s with stopped := true, image_id := false, frames := [] }

/-- Observable effects of one `GifImageTk.animate` tick (lines 93-122):
whether a frame was drawn to the canvas and whether the tick rescheduled
itself via `canvas.after`. -/
structure AnimateResult where
  state : GifState
  redrew : Bool
  rescheduled : Bool
  deriving Repr, DecidableEq

/-- One tick of the animation driver `GifImageTk.animate`, with the canvas
assumed alive (`canvas.winfo_exists()` true, no `TclError`).  In the
stopped state it only clears the canvas item and returns without
rescheduling. -/
def animate (s : GifState) : AnimateResult :=
  if s.stopped then
    { state := { s with image_id := false }, redrew := false, rescheduled := false }
  else if s.frames ≠ [] then
    if s.image_id then
      { state := s, redrew := true, rescheduled := true }
    else
      { state := { s with stopped := true }, redrew := false, rescheduled := false }
  else
    { state := { s with image_id := false }, redrew := false, rescheduled := false }

/-- Error-free source: no frame fails to decode. -/
def noErr : Nat → Bool := fun _ => false

/-- A source whose frame `e` fails to decode (and only it). -/
def errAt (e : Nat) : Nat → Bool := fun i => decide (i = e)

/-- One error-free loading step from the canonical in-progress state
(`k` frames captured in source order, positioned at frame `k`). -/
theorem continue_load_frame_range (F k : Nat) (st im : Bool) (hk : k < F) :
    continue_load_frame F noErr ⟨List.range k, k, st, im⟩ =
      if k + 1 < F then (true, ⟨List.range (k + 1), k + 1, st, im⟩)
      else (false, ⟨List.range (k + 1), k, st, im⟩) := by
  simp only [continue_load_frame, noErr, Bool.false_or, decide_eq_true_eq]
  rw [if_neg (by omega)]
  simp only [List.range_succ, List.length_append, List.length_range,
    List.length_cons, List.length_nil]

/-- Unfolding equation for the worker loop. -/
theorem continue_load_eq (F : Nat) (err : Nat → Bool) (s : GifState) :
    continue_load F err s =
      if (continue_load_frame F err s).1 = true then
        continue_load F err (continue_load_frame F err s).2
      else (continue_load_frame F err s).2 := by
  rw [continue_load]
  simp only [dite_eq_ite]

/-- Bounded version of the worker-loop analysis, by induction on the
remaining frame budget. -/
theorem continue_load_range_aux (F : Nat) :
    ∀ n k : Nat, ∀ st im : Bool, F - k ≤ n → k < F →
      continue_load F noErr ⟨List.range k, k, st, im⟩ =
        ⟨List.range F, F - 1, st, im⟩ := by
  intro n
  induction n with
  | zero => intro k st im h1 h2; omega
  | succ n ih =>
    intro k st im h1 h2
    rw [continue_load_eq, continue_load_frame_range F k st im h2]
    by_cases hk1 : k + 1 < F
    · simp only [if_pos hk1]
      exact ih (k + 1) st im (by omega) hk1
    · simp only [if_neg hk1]
      have hF : k + 1 = F := by omega
      subst hF
      simp

/-- The error-free worker loop, started from the canonical in-progress
state, captures every remaining frame and ends positioned at the last. -/
theorem continue_load_range (F k : Nat) (st im : Bool) (hk : k < F) :
    continue_load F noErr ⟨List.range k, k, st, im⟩ =
      ⟨List.range F, F - 1, st, im⟩ :=
  continue_load_range_aux F (F - k) k st im le_rfl hk

/-- A decode error at the current position stops the loop without any
append: the `except` clause logs and returns `False`. -/
theorem continue_load_frame_of_err (F : Nat) (err : Nat → Bool) (s : GifState)
    (h : err s.pos = true) : continue_load_frame F err s = (false, s) := by
  simp [continue_load_frame, h]

/-- An error-free loading step of an erroring source away from the bad
frame behaves like the error-free one. -/
theorem continue_load_frame_errAt (F e k : Nat) (st im : Bool) (hk : k < F)
    (hne : k ≠ e) :
    continue_load_frame F (errAt e) ⟨List.range k, k, st, im⟩ =
      if k + 1 < F then (true, ⟨List.range (k + 1), k + 1, st, im⟩)
      else (false, ⟨List.range (k + 1), k, st, im⟩) := by
  simp only [continue_load_frame, errAt]
  rw [if_neg (by simp; omega)]
  simp only [List.range_succ, List.length_append, List.length_range,
    List.length_cons, List.length_nil]

/-- Worker loop over a source whose frame `e` fails to decode: starting
from the canonical state at position `k ≤ e`, decoding stops silently at
`e` and exactly the frames before `e` are captured. -/
theorem continue_load_errAt_aux (F e : Nat) (he : e < F) :
    ∀ n k : Nat, ∀ st im : Bool, e - k ≤ n → k ≤ e →
      continue_load F (errAt e) ⟨List.range k, k, st, im⟩ =
        ⟨List.range e, e, st, im⟩ := by
  intro n
  induction n with
  | zero =>
    intro k st im h1 h2
    have hke : k = e := by omega
    subst hke
    rw [continue_load_eq, continue_load_frame_of_err F _ _ (by simp [errAt])]
    simp
  | succ n ih =>
    intro k st im h1 h2
    by_cases hke : k = e
    · subst hke
      rw [continue_load_eq, continue_load_frame_of_err F _ _ (by simp [errAt])]
      simp
    · have hk : k < F := by omega
      rw [continue_load_eq, continue_load_frame_errAt F e k st im hk hke]
      have hk1 : k + 1 < F := by omega
      simp only [if_pos hk1]
      exact ih (k + 1) st im (by omega) (by omega)

/-- Priming a short source (`F ≤ 3`): every frame is captured during
`__init__` and the `for`/`else` never reaches its `else`, so no worker
thread starts. -/
theorem gifInit_small (F : Nat) (h : F ≤ 3) :
    (gifInit F noErr).1.frames = List.range F ∧ (gifInit F noErr).2 = false := by
  interval_cases F <;> exact ⟨by decide, by decide⟩

/-- Priming a long source: if the first three frames decode, exactly
frames 0, 1, 2 are captured synchronously and the worker is spawned. -/
theorem gifInit_long (F : Nat) (err : Nat → Bool) (h : 3 < F)
    (h0 : err 0 = false) (h1 : err 1 = false) (h2 : err 2 = false) :
    gifInit F err = (⟨[0, 1, 2], 3, false, false⟩, true) := by
  have hA : ¬ F ≤ 0 := by omega
  have hB : ¬ F ≤ 1 := by omega
  have hC : ¬ F ≤ 2 := by omega
  have hD : 1 < F := by omega
  have hE : 2 < F := by omega
  simp [gifInit, primeLoop, initState, continue_load_frame,
    h0, h1, h2, hA, hB, hC, hD, hE, h]

/-- C1: for a `GifImageTk` over an animated source with `F` decodable
frames and priming threshold 3: if `F ≤ 3`, all `F` frames are captured
during synchronous construction and no background worker is spawned; if
`F > 3`, exactly 3 frames are captured synchronously, the worker is
spawned, and the worker loop brings the frame list to length `F` — or to
length `e < F` when frame `e` (`e ≥ 3`) fails to decode mid-stream, the
captured frames staying. -/
theorem claim_C1 (F : Nat) :
    (F ≤ 3 →
      (gifInit F noErr).1.frames = List.range F ∧ (gifInit F noErr).2 = false) ∧
    (3 < F →
      (gifInit F noErr).1.frames.length = 3 ∧ (gifInit F noErr).2 = true ∧
      (continue_load F noErr (gifInit F noErr).1).frames = List.range F ∧
      (continue_load F noErr (gifInit F noErr).1).frames.length = F) ∧
    (∀ e : Nat, 3 ≤ e → e < F →
      (gifInit F (errAt e)).1.frames.length = 3 ∧
      (gifInit F (errAt e)).2 = true ∧
      (continue_load F (errAt e) (gifInit F (errAt e)).1).frames.length = e) := by
  refine ⟨gifInit_small F, fun h => ?_, fun e he1 he2 => ?_⟩
  · rw [gifInit_long F noErr h rfl rfl rfl]
    refine ⟨rfl, rfl, ?_, ?_⟩
    · have h3 : ([0, 1, 2] : List Nat) = List.range 3 := by decide
      simp only [h3]
      rw [continue_load_range F 3 false false (by omega)]
    · have h3 : ([0, 1, 2] : List Nat) = List.range 3 := by decide
      simp only [h3]
      rw [continue_load_range F 3 false false (by omega)]
      simp
  · have hF : 3 < F := by omega
    have e0 : errAt e 0 = false := by simp [errAt]; omega
    have e1 : errAt e 1 = false := by simp [errAt]; omega
    have e2 : errAt e 2 = false := by simp [errAt]; omega
    rw [gifInit_long F (errAt e) hF e0 e1 e2]
    refine ⟨rfl, rfl, ?_⟩
    have h3 : ([0, 1, 2] : List Nat) = List.range 3 := by decide
    simp only [h3]
    rw [continue_load_errAt_aux F e he2 (e - 3) 3 false false (by omega) (by omega)]
    simp

/-- Witness for C1 at concrete sources: a 2-frame source (all captured, no
worker), a 5-frame error-free source (3 primed, worker completes to 5),
and a 6-frame source whose frame 4 fails to decode (worker stops at 4). -/
theorem claim_C1_witness :
    ((gifInit 2 noErr).1.frames = List.range 2 ∧ (gifInit 2 noErr).2 = false) ∧
    ((gifInit 5 noErr).1.frames.length = 3 ∧ (gifInit 5 noErr).2 = true ∧
      (continue_load 5 noErr (gifInit 5 noErr).1).frames = List.range 5 ∧
      (continue_load 5 noErr (gifInit 5 noErr).1).frames.length = 5) ∧
    ((gifInit 6 (errAt 4)).1.frames.length = 3 ∧
      (gifInit 6 (errAt 4)).2 = true ∧
      (continue_load 6 (errAt 4) (gifInit 6 (errAt 4)).1).frames.length = 4) :=
  ⟨(claim_C1 2).1 (by norm_num),
   (claim_C1 5).2.1 (by norm_num),
   (claim_C1 6).2.2 4 (by norm_num) (by norm_num)⟩

/-- C2 counterexample: the claim "a worker finishing a frame after destroy
must not mutate the frame storage" is false.  Concretely, over a 5-frame
source, prime 3 frames, call `destroy` (frame storage reset to `[]`), then
let the worker finish the frame it was decoding: `continue_load_frame`
appends it, so the frame storage is mutated (`[3] ≠ []`). -/
theorem claim_C2_counterexample :
    (continue_load_frame 5 noErr (gifDestroy (gifInit 5 noErr).1)).2.frames ≠
      (gifDestroy (gifInit 5 noErr).1).frames := by decide

/-- C2 as amended: once `destroy()` runs, the animation driver stops
permanently — an `animate` tick in the destroyed state neither redraws nor
reschedules — and `destroy` resets the frame storage to empty; but the
worker checks no stop flag, so a worker finishing a decodable frame after
destroy appends it to the frame storage (frames decoded after teardown are
retained in storage, though never displayed). -/
theorem claim_C2 (F : Nat) (err : Nat → Bool) (s : GifState) :
    (animate (gifDestroy s)).redrew = false ∧
    (animate (gifDestroy s)).rescheduled = false ∧
    (gifDestroy s).frames = [] ∧
    (err s.pos = false → s.pos < F →
      (continue_load_frame F err (gifDestroy s)).2.frames = [s.pos]) := by
  refine ⟨by simp [animate, gifDestroy], by simp [animate, gifDestroy], rfl,
    fun h1 h2 => ?_⟩
  simp only [continue_load_frame, gifDestroy]
  rw [if_neg (by simp [h1]; omega)]
  simp only [List.nil_append]
  split <;> rfl

/-- Witness for C2 at the concrete post-destroy state of a primed 5-frame
loader (seek position 3). -/
theorem claim_C2_witness :
    (animate (gifDestroy (gifInit 5 noErr).1)).redrew = false ∧
    (animate (gifDestroy (gifInit 5 noErr).1)).rescheduled = false ∧
    (gifDestroy (gifInit 5 noErr).1).frames = [] ∧
    (continue_load_frame 5 noErr (gifDestroy (gifInit 5 noErr).1)).2.frames =
      [(gifInit 5 noErr).1.pos] :=
  ⟨(claim_C2 5 noErr (gifInit 5 noErr).1).1,
   (claim_C2 5 noErr (gifInit 5 noErr).1).2.1,
   (claim_C2 5 noErr (gifInit 5 noErr).1).2.2.1,
   (claim_C2 5 noErr (gifInit 5 noErr).1).2.2.2 (by decide) (by decide)⟩

/-! ## Resize debouncer: `Window.handle_resize` / `Window.resizelast_detect_f`
(src/window.py lines 375-387)

`self.window_size` and the generation counter `self.resizelast_detect` are
modelled directly; the Tk `after(125, ...)` queue is modelled as the FIFO
list of not-yet-fired check tokens, and a re-render (a `flush_image()`
call from the debounce check) is recorded together with the viewport size
current at that moment.  `VLC_SUPPORT` and `self.playing_video` are
parameters. -/

structure DebState where
  /-- `self.window_size`. -/
  window_size : Nat × Nat
  /-- `self.resizelast_detect`, the generation counter. -/
  resizelast_detect : Nat
  /-- Tokens of scheduled `after(125, resizelast_detect_f, i)` calls that
  have not fired yet, in scheduling order. -/
  pending : List Nat
  /-- Viewport sizes passed to the re-renders triggered so far, in order. -/
  rerenders : List (Nat × Nat)
  deriving Repr, DecidableEq

/-- `Window.handle_resize` (lines 381-387): ignore notifications that do
not change the window size; otherwise bump the generation counter and
schedule a check carrying the bumped value. -/
def handle_resize (sz : Nat × Nat) (s : DebState) : DebState :=
  if sz ≠ s.window_size then
    { s with window_size := sz,
             resizelast_detect := s.resizelast_detect + 1,
             pending := s.pending ++ [s.resizelast_detect + 1] }
  else s

/-- `Window.resizelast_detect_f` (lines 375-380): the scheduled check.  It
re-renders (calls `flush_image`) only when its token still equals the
counter, and only when VLC support is present and no video is playing. -/
def resizelast_detect_f (vlc playing : Bool) (i : Nat) (s : DebState) : DebState :=
  if i = s.resizelast_detect then
    { s with resizelast_detect := 0,
             rerenders := if vlc && !playing then s.rerenders ++ [s.window_size]
                          else s.rerenders }
  else s

/-- Deliver a sequence of resize notifications. -/
def runResizes (szs : List (Nat × Nat)) (s : DebState) : DebState :=
  szs.foldl (fun st sz => handle_resize sz st) s

/-- Fire a list of scheduled checks in order. -/
def fireList (vlc playing : Bool) : List Nat → DebState → DebState
  | [], s => s
  | i :: rest, s => fireList vlc playing rest (resizelast_detect_f vlc playing i s)

/-- A burst: from a quiescent debouncer (counter 0, nothing scheduled),
deliver all resize events, then — the quiet period having elapsed — let
every scheduled check fire in order. -/
def burst (vlc playing : Bool) (w0 : Nat × Nat) (szs : List (Nat × Nat)) : DebState :=
  let s1 := runResizes szs ⟨w0, 0, [], []⟩
  fireList vlc playing s1.pending { s1 with pending := [] }

/-- Each event of the burst changes the size seen so far. -/
def changing : (Nat × Nat) → List (Nat × Nat) → Bool
  | _, [] => true
  | prev, sz :: rest => sz ≠ prev && changing sz rest

/-- Effect of a burst of size-changing resize notifications: the counter
counts them and checks carrying successive tokens get scheduled. -/
theorem runResizes_changing :
    ∀ (szs : List (Nat × Nat)) (w0 : Nat × Nat) (c : Nat) (p : List Nat)
      (r : List (Nat × Nat)), changing w0 szs = true →
      runResizes szs ⟨w0, c, p, r⟩ =
        ⟨szs.getLastD w0, c + szs.length,
          p ++ (List.range szs.length).map (fun i => c + i + 1), r⟩ := by
  intro szs
  induction szs with
  | nil => intro w0 c p r _; simp [runResizes]
  | cons sz rest ih =>
    intro w0 c p r h
    simp only [changing, Bool.and_eq_true, ne_eq, decide_eq_true_eq] at h
    simp only [runResizes, List.foldl_cons]
    rw [show handle_resize sz ⟨w0, c, p, r⟩ = ⟨sz, c + 1, p ++ [c + 1], r⟩ from by
      simp [handle_resize, h.1]]
    have hrec := ih sz (c + 1) (p ++ [c + 1]) r h.2
    simp only [runResizes] at hrec
    rw [hrec]
    have htok : (p ++ [c + 1]) ++ (List.range rest.length).map (fun i => c + 1 + i + 1)
        = p ++ (List.range (rest.length + 1)).map (fun i => c + i + 1) := by
      rw [List.range_succ_eq_map, List.map_cons, List.map_map, List.append_assoc]
      refine congrArg (p ++ ·) ?_
      refine congrArg₂ (· :: ·) (by omega) ?_
      refine List.map_congr_left fun i _ => ?_
      simp only [Function.comp_apply]
      omega
    simp only [List.getLastD_cons, List.length_cons, htok]
    refine congrArg₂ (fun a b => DebState.mk a b _ _) rfl (by omega)

/-- Firing the scheduled checks of a burst in order: every check but the
last finds a newer token and does nothing; the last one matches, resets
the counter and re-renders exactly when VLC support is present and no
video is playing. -/
theorem fireList_tokens (vlc playing : Bool) :
    ∀ (m a : Nat) (w : Nat × Nat) (r : List (Nat × Nat)), 0 < m →
      fireList vlc playing ((List.range m).map (fun i => a + i + 1))
          ⟨w, a + m, [], r⟩ =
        ⟨w, 0, [], if vlc && !playing then r ++ [w] else r⟩ := by
  intro m
  induction m with
  | zero => intro a w r h; omega
  | succ m ih =>
    intro a w r _
    have htok : (List.range (m + 1)).map (fun i => a + i + 1)
        = (a + 1) :: (List.range m).map (fun i => (a + 1) + i + 1) := by
      rw [List.range_succ_eq_map, List.map_cons, List.map_map]
      refine congrArg₂ (· :: ·) (by omega) ?_
      refine List.map_congr_left fun i _ => ?_
      simp only [Function.comp_apply]
      omega
    rw [htok]
    by_cases hm : m = 0
    · subst hm
      simp [fireList, resizelast_detect_f]
    · simp only [fireList]
      rw [show resizelast_detect_f vlc playing (a + 1) ⟨w, a + (m + 1), [], r⟩
            = ⟨w, a + (m + 1), [], r⟩ from by
        rw [resizelast_detect_f, if_neg (by simp; omega)]]
      have hc : a + (m + 1) = (a + 1) + m := by omega
      rw [hc]
      exact ih (a + 1) w r (by omega)

/-- C3 as amended: for a burst of K ≥ 1 resize events (each changing the
window size) within the quiet period, every generation increments the
counter and schedules a check; after the quiet period, exactly one
re-render occurs — using the viewport size of the last event — provided
VLC support is present and no video is playing; during video playback (or
without VLC support) the surviving check fires but performs no re-render. -/
theorem claim_C3 (w0 : Nat × Nat) (szs : List (Nat × Nat)) (vlc playing : Bool)
    (hch : changing w0 szs = true) (hne : szs ≠ []) :
    burst vlc playing w0 szs =
      ⟨szs.getLastD w0, 0, [],
        if vlc && !playing then [szs.getLastD w0] else []⟩ := by
  unfold burst
  rw [runResizes_changing szs w0 0 [] [] hch]
  show fireList vlc playing ([] ++ (List.range szs.length).map (fun i => 0 + i + 1))
      ⟨szs.getLastD w0, 0 + szs.length, [], []⟩ = _
  rw [List.nil_append,
    fireList_tokens vlc playing szs.length 0 (szs.getLastD w0) []
      (List.length_pos.mpr hne)]
  simp

/-- C3 counterexample to the claim as stated: with a video playing, a
burst of one size-changing resize event triggers zero re-renders, not
exactly one. -/
theorem claim_C3_counterexample :
    (burst true true (1, 1) [(2, 2)]).rerenders.length ≠ 1 := by decide

/-- Witness for C3: a two-event burst while a still image is displayed
re-renders exactly once with the last size. -/
theorem claim_C3_witness :
    burst true false (1, 1) [(2, 2), (3, 3)] =
      ⟨([(2, 2), (3, 3)] : List (Nat × Nat)).getLastD (1, 1), 0, [],
        if true && !false then
          [([(2, 2), (3, 3)] : List (Nat × Nat)).getLastD (1, 1)]
        else []⟩ :=
  claim_C3 (1, 1) [(2, 2), (3, 3)] true false (by decide) (by decide)

/-! ## Sidecar tag store: `Window.load_tags` / `Window.save_tags`
(src/window.py lines 165-192)

Python strings are `List Char` (`PStr`).  A sidecar JSON document is an
association list of fields; a field value is either an array of strings
(the shape `save_tags` writes under `"tags"`) or some other JSON value,
opaque to the tag store.  The filesystem is an association list from path
to file content, where a present file either parses to a record or is
malformed (`orjson.loads` raises).  A boolean `writeOk` models whether the
final `open(json_path, 'wb')`/`write` succeeds. -/

/-- A Python string. -/
abbrev PStr := List Char

/-- The reserved tag marker `'score__'`. -/
def scoreReserved : PStr := "score__".toList

/-- `tag.startswith('score__')`. -/
def isScoreTag (t : PStr) : Bool := scoreReserved.isPrefixOf t

/-- A JSON field value, as far as the tag store distinguishes them. -/
inductive JVal where
  /-- An array of strings — what `save_tags` stores under `"tags"`. -/
  | arr : List PStr → JVal
  /-- Any other JSON value, opaque to the tag store. -/
  | other : Nat → JVal
  deriving Repr, DecidableEq

/-- A parsed JSON object: ordered association list of fields. -/
abbrev JRecord := List (PStr × JVal)

/-- The `"tags"` field key. -/
def tagsKey : PStr := "tags".toList

/-- Field lookup in a JSON object (`fc.get(k)` / `fc[k]` on read). -/
def getField (r : JRecord) (k : PStr) : Option JVal :=
  match r with
  | [] => none
  | (k', v) :: rest => if k' = k then some v else getField rest k

/-- Field assignment `fc[k] = v`: replace in place, else append
(Python dicts preserve insertion order). -/
def setField (k : PStr) (v : JVal) : JRecord → JRecord
  | [] => [(k, v)]
  | (k', v') :: rest => if k' = k then (k, v) :: rest else (k', v') :: setField k v rest

/-- Content of a sidecar file present on disk. -/
inductive FileContent where
  /-- The file parses to a JSON object. -/
  | record : JRecord → FileContent
  /-- The file exists but `orjson.loads` raises. -/
  | malformed : FileContent
  deriving Repr, DecidableEq

/-- The sidecar filesystem: association list from path to content. -/
abbrev FS := List (PStr × FileContent)

/-- `os.path.exists` + read: the content of the file at `p`, if present. -/
def lookupFS (fs : FS) (p : PStr) : Option FileContent :=
  match fs with
  | [] => none
  | (p', c) :: rest => if p' = p then some c else lookupFS rest p

/-- Write the file at `p` (create or overwrite). -/
def updateFS (p : PStr) (c : FileContent) : FS → FS
  | [] => [(p, c)]
  | (p', c') :: rest => if p' = p then (p, c) :: rest else (p', c') :: updateFS p c rest

/-- Index of the last occurrence of `c` in `l` (Python `str.rfind`). -/
def rfindIdx (c : Char) (l : List Char) : Option Nat :=
  match l.reverse.findIdx? (· = c) with
  | none => none
  | some i => some (l.length - 1 - i)

/-- The root part of `os.path.splitext(p)` (POSIX): split at the last dot
that lies after the last path separator, unless every character of the
basename before it is itself a dot (hidden-file rule). -/
def splitextRoot (p : PStr) : PStr :=
  let sepIdx : Int := match rfindIdx '/' p with | some i => (i : Int) | none => -1
  match rfindIdx '.' p with
  | none => p
  | some d =>
    if sepIdx < (d : Int) then
      let start := (sepIdx + 1).toNat
      if (List.range (d - start)).any (fun j => p.getD (start + j) '.' ≠ '.') then
        p.take d
      else p
    else p

/-- `os.path.splitext(image_path)[0] + '.json'` (lines 166 and 178). -/
def jsonPath (p : PStr) : PStr := splitextRoot p ++ ".json".toList

/-- `Window.load_tags` (lines 165-176): read the sidecar next to
`image_path`; a missing file, a parse error, or a missing `tags` field all
degrade to the empty tag list. -/
def load_tags (fs : FS) (image_path : PStr) : List PStr :=
  match lookupFS fs (jsonPath image_path) with
  | none => []
  | some .malformed => []
  | some (.record r) =>
    match getField r tagsKey with
    | some (.arr ts) => ts
    | _ => []

/-- `Window.save_tags` (lines 177-192): read the existing sidecar record
(empty if missing or malformed), replace its `tags` field, write back.  A
failing write (`writeOk = false`) is logged and leaves the store
untouched. -/
def save_tags (writeOk : Bool) (fs : FS) (image_path : PStr)
    (tag_list : List PStr) : FS :=
  let jp := jsonPath image_path
  let fc : JRecord := match lookupFS fs jp with
    | some (.record r) => r
    | _ => []
  let fc' := setField tagsKey (.arr tag_list) fc
  if writeOk then updateFS jp (.record fc') fs else fs

/-- Writing a file and reading it back at the same path. -/
theorem lookupFS_updateFS_self (fs : FS) (p : PStr) (c : FileContent) :
    lookupFS (updateFS p c fs) p = some c := by
  induction fs with
  | nil => simp [updateFS, lookupFS]
  | cons pc rest ih =>
    obtain ⟨p', c'⟩ := pc
    by_cases h : p' = p
    · subst h; simp [updateFS, lookupFS]
    · simp [updateFS, lookupFS, h, ih]

/-- Reading back the field just assigned. -/
theorem getField_setField_self (r : JRecord) (k : PStr) (v : JVal) :
    getField (setField k v r) k = some v := by
  induction r with
  | nil => simp [setField, getField]
  | cons kv rest ih =>
    obtain ⟨k', v'⟩ := kv
    by_cases h : k' = k
    · subst h; simp [setField, getField]
    · simp [setField, getField, h, ih]

/-- Assigning one field leaves every other field unchanged. -/
theorem getField_setField_ne (r : JRecord) (k k' : PStr) (v : JVal)
    (h : k' ≠ k) :
    getField (setField k v r) k' = getField r k' := by
  have hne : ¬ k = k' := fun hh => h hh.symm
  induction r with
  | nil => simp [setField, getField, hne]
  | cons kv rest ih =>
    obtain ⟨k0, v0⟩ := kv
    by_cases h0 : k0 = k
    · subst h0
      simp [setField, getField, hne]
    · simp [setField, getField, h0, ih]

/-- Reading tags back from a freshly written record. -/
theorem load_tags_updateFS (fs : FS) (p : PStr) (ts : List PStr) (fc : JRecord) :
    load_tags (updateFS (jsonPath p) (.record (setField tagsKey (.arr ts) fc)) fs) p
      = ts := by
  unfold load_tags
  rw [lookupFS_updateFS_self]
  show (match getField (setField tagsKey (.arr ts) fc) tagsKey with
        | some (.arr ts') => ts'
        | _ => ([] : List PStr)) = ts
  rw [getField_setField_self]

/-- C5: `save_tags(path, tags)` followed by `load_tags(path)` returns the
same ordered tag sequence (the write succeeding). -/
theorem claim_C5 (fs : FS) (p : PStr) (ts : List PStr) :
    load_tags (save_tags true fs p ts) p = ts := by
  unfold save_tags
  exact load_tags_updateFS fs p ts _

/-- C6: `save_tags` merges into an existing parsed sidecar record: the
rewritten file holds the old record with only its `tags` field replaced,
so every other field is preserved unchanged; and a failing write leaves
the store untouched (it is logged, never fatal). -/
theorem claim_C6 (fs : FS) (p : PStr) (ts : List PStr) (r : JRecord)
    (hr : lookupFS fs (jsonPath p) = some (.record r)) :
    lookupFS (save_tags true fs p ts) (jsonPath p)
        = some (.record (setField tagsKey (.arr ts) r)) ∧
    (∀ k, k ≠ tagsKey →
      getField (setField tagsKey (.arr ts) r) k = getField r k) ∧
    getField (setField tagsKey (.arr ts) r) tagsKey = some (.arr ts) ∧
    save_tags false fs p ts = fs := by
  refine ⟨?_, fun k hk => getField_setField_ne r tagsKey k (.arr ts) hk,
    getField_setField_self r tagsKey (.arr ts), by simp [save_tags]⟩
  simp only [save_tags]
  rw [hr]
  exact lookupFS_updateFS_self fs (jsonPath p) _

/-- Witness for C6 on a concrete store: the sidecar of `a.png` holds an
unrelated field, which survives the rewrite. -/
theorem claim_C6_witness :
    lookupFS
        (save_tags true [("a.json".toList, .record [("k".toList, .other 7)])]
          "a.png".toList ["t".toList])
        (jsonPath "a.png".toList)
      = some (.record (setField tagsKey (.arr ["t".toList])
          [("k".toList, .other 7)])) ∧
    (∀ k, k ≠ tagsKey →
      getField (setField tagsKey (.arr ["t".toList]) [("k".toList, .other 7)]) k
        = getField [("k".toList, .other 7)] k) ∧
    getField (setField tagsKey (.arr ["t".toList]) [("k".toList, .other 7)])
        tagsKey = some (.arr ["t".toList]) ∧
    save_tags false [("a.json".toList, .record [("k".toList, .other 7)])]
        "a.png".toList ["t".toList]
      = [("a.json".toList, .record [("k".toList, .other 7)])] :=
  claim_C6 [("a.json".toList, .record [("k".toList, .other 7)])]
    "a.png".toList ["t".toList] [("k".toList, .other 7)] (by decide)

/-! ## Score assignment: `Window.handle_tag` (src/window.py lines 214-220) -/

/-- `'10' if digit == '*' else digit`. -/
def scoreValue (digit : PStr) : PStr :=
  if digit = "*".toList then "10".toList else digit

/-- The pure tag-list effect of `Window.handle_tag`: strip any tag with
the reserved `score__` marker (the `if any(...)` guard of line 216), then
append the new score tag. -/
def handle_tag_tags (digit : PStr) (tags : List PStr) : List PStr :=
  (if tags.any isScoreTag then tags.filter (fun t => !isScoreTag t) else tags)
    ++ [scoreReserved ++ scoreValue digit]

/-- `Window.handle_tag`: update `self.tag_list` and persist it
synchronously via `save_tags` on the current image's sidecar. -/
def handle_tag (writeOk : Bool) (digit image_path : PStr)
    (tag_list : List PStr) (fs : FS) : List PStr × FS :=
  let tl := handle_tag_tags digit tag_list
  (tl, save_tags writeOk fs image_path tl)

/-- The freshly built score tag carries the reserved marker. -/
theorem isScoreTag_append (v : PStr) : isScoreTag (scoreReserved ++ v) = true := by
  simp only [isScoreTag, List.isPrefixOf_iff_prefix]
  exact List.prefix_append _ _

/-- After `handle_tag`, the reserved-marker tags of the tag list are
exactly the one just assigned. -/
theorem handle_tag_tags_filter (digit : PStr) (tags : List PStr) :
    (handle_tag_tags digit tags).filter isScoreTag
      = [scoreReserved ++ scoreValue digit] := by
  unfold handle_tag_tags
  rw [List.filter_append]
  have h2 : List.filter isScoreTag [scoreReserved ++ scoreValue digit]
      = [scoreReserved ++ scoreValue digit] := by
    simp [List.filter, isScoreTag_append]
  rw [h2]
  by_cases h : tags.any isScoreTag
  · rw [if_pos h]
    have hnil : (tags.filter fun t => !isScoreTag t).filter isScoreTag = [] := by
      rw [List.filter_eq_nil_iff]
      intro a ha
      have := (List.mem_filter.mp ha).2
      simp at this
      simp [this]
    rw [hnil, List.nil_append]
  · rw [if_neg h]
    have hnil : tags.filter isScoreTag = [] := by
      rw [List.filter_eq_nil_iff]
      intro a ha
      simp only [List.any_eq_true, not_exists, not_and, Bool.not_eq_true] at h
      simp [h a ha]
    rw [hnil, List.nil_append]

/-- C4: `handle_tag` first removes any tag with the reserved `score__`
marker, then appends the new one and persists synchronously: afterwards
exactly one reserved tag exists, equal to the latest assigned value, and
re-reading the sidecar returns the new tag list; a second call with a
different digit again leaves exactly one reserved tag, equal to the second
value. -/
theorem claim_C4 (digit d2 image_path : PStr) (tags : List PStr) (fs : FS) :
    ((handle_tag true digit image_path tags fs).1.filter isScoreTag
        = [scoreReserved ++ scoreValue digit]) ∧
    ((handle_tag true digit image_path tags fs).1.countP isScoreTag = 1) ∧
    (load_tags (handle_tag true digit image_path tags fs).2 image_path
        = (handle_tag true digit image_path tags fs).1) ∧
    ((handle_tag true d2 image_path (handle_tag true digit image_path tags fs).1
          (handle_tag true digit image_path tags fs).2).1.filter isScoreTag
        = [scoreReserved ++ scoreValue d2]) ∧
    ((handle_tag true d2 image_path (handle_tag true digit image_path tags fs).1
          (handle_tag true digit image_path tags fs).2).1.countP isScoreTag = 1) := by
  refine ⟨handle_tag_tags_filter digit tags, ?_, claim_C5 fs image_path _,
    handle_tag_tags_filter d2 _, ?_⟩
  · rw [List.countP_eq_length_filter]
    show (List.filter isScoreTag (handle_tag_tags digit tags)).length = 1
    rw [handle_tag_tags_filter digit tags]
    rfl
  · rw [List.countP_eq_length_filter]
    show (List.filter isScoreTag
        (handle_tag_tags d2 (handle_tag_tags digit tags))).length = 1
    rw [handle_tag_tags_filter d2 (handle_tag_tags digit tags)]
    rfl

/-! ## Navigation and broken-item recovery: `Window.reload_image`,
`Window.handle_seek`, `Window.handle_delete`
(src/window.py lines 221-290, 388-405, 496-508)

A session media item carries its path, whether `os.path.exists` holds,
whether opening it (image or video branch) succeeds, and the tag list its
sidecar loads to.  The window state is the session list, the current index
and the in-memory tag list. -/

structure MItem where
  path : PStr
  onDisk : Bool
  openable : Bool
  tags : List PStr
  deriving Repr, DecidableEq

structure WState where
  image_list : List MItem
  image_iter : Nat
  tag_list : List PStr
  deriving Repr, DecidableEq

/-- `any(tag.startswith('score__') for tag in tags)`. -/
def scored (tags : List PStr) : Bool := tags.any isScoreTag

/-- `Window.reload_tags` (lines 332-339) without the display flush: load
the current item's sidecar tags, or clear them on an empty list.  (When
the index is out of range Python raises `IndexError`; total callers keep
it in range, and the one call site that does not — the `handle_seek`
loop — models the raise explicitly.) -/
def reload_tagsF (s : WState) : WState :=
  if s.image_list.isEmpty then { s with tag_list := [] }
  else
    match s.image_list[s.image_iter]? with
    | some it => { s with tag_list := it.tags }
    | none => s

/-- `Window.reload_image` (lines 221-290): no-op on an empty list;
otherwise check `os.path.exists` (the assert of line 228), reload the
tags (line 237), then open the media; either failure pops the current
entry, resets the index to 0 and retries.  Terminates because the list
shrinks on every failure. -/
def reload_image (s : WState) : WState :=
  if s.image_list.isEmpty then s
  else if h : s.image_iter < s.image_list.length then
    let it := s.image_list[s.image_iter]
    if !it.onDisk then
      reload_image ⟨s.image_list.eraseIdx s.image_iter, 0, s.tag_list⟩
    else if !it.openable then
      reload_image ⟨s.image_list.eraseIdx s.image_iter, 0, it.tags⟩
    else { s with tag_list := it.tags }
  else s
termination_by s.image_list.length
decreasing_by
  · have := List.length_eraseIdx_add_one h; omega
  · have := List.length_eraseIdx_add_one h; omega

/-- The `while` loop of `Window.handle_seek` (lines 503-505): while the
index is in range and the currently loaded tag list has a reserved score
tag, advance the index and reload the tags of the item now at the index.
When the advance leaves the range, the `reload_tags` call raises
`IndexError` (`.error`), carrying the state at the raise. -/
def seekLoop (s : WState) : Except WState WState :=
  if h : s.image_iter < s.image_list.length ∧ scored s.tag_list = true then
    match s.image_list[s.image_iter + 1]? with
    | some it => seekLoop { s with image_iter := s.image_iter + 1, tag_list := it.tags }
    | none => .error { s with image_iter := s.image_iter + 1 }
  else .ok s
termination_by s.image_list.length - s.image_iter
decreasing_by omega

/-- `Window.handle_seek` (lines 496-508): no-op on an empty list or when
the current tag list has no score tag; otherwise reset the index to 0 and
run the loop — note the loop's first test still reads the tag list of the
previously current item — then wrap the index, reload tags and reload the
image.  `.error` is the uncaught `IndexError` escaping the handler. -/
def handle_seek (s : WState) : Except WState WState :=
  if s.image_list.isEmpty then .ok s
  else if !scored s.tag_list then .ok s
  else
    match seekLoop { s with image_iter := 0 } with
    | .error e => .error e
    | .ok s1 =>
      let s2 := { s1 with image_iter := s1.image_iter % s1.image_list.length }
      .ok (reload_image (reload_tagsF s2))

/-- `'.'.join(path.split('.')[:-1]) + '.json'` (lines 398-399): the
sidecar path as `handle_delete` derives it — everything before the last
dot (empty if the path has no dot), plus `.json`. -/
def sidecarPath (p : PStr) : PStr :=
  (match rfindIdx '.' p with
   | some i => p.take i
   | none => []) ++ ".json".toList

/-- Remove a file (what `send2trash` does to the filesystem). -/
def removeFS (p : PStr) (fs : FS) : FS :=
  fs.filter (fun pc => pc.1 ≠ p)

/-- `Window.handle_delete` (lines 388-405): if the list is empty or the
user declines, do nothing.  Otherwise send the current file — and its
sidecar, if one exists — to the trash, pop the entry, clamp the index
modulo the new length and reload.  When the popped entry was the last
one, `self.image_iter %= 0` raises `ZeroDivisionError`, which the
`except BaseException` swallows after the pop: the index stays and no
reload happens.  The two `send2trash` calls are assumed to succeed.
Returns the window state, the sidecar store and the accumulated trash
list. -/
def handle_delete (confirm : Bool) (s : WState) (fs : FS) (trash : List PStr) :
    WState × FS × List PStr :=
  if s.image_list.isEmpty then (s, fs, trash)
  else if !confirm then (s, fs, trash)
  else
    match s.image_list[s.image_iter]? with
    | none => (s, fs, trash)
    | some it =>
      let trash1 := trash ++ [it.path]
      let sc := sidecarPath it.path
      let hasSc := (lookupFS fs sc).isSome
      let trash2 := if hasSc then trash1 ++ [sc] else trash1
      let fs1 := if hasSc then removeFS sc fs else fs
      let l1 := s.image_list.eraseIdx s.image_iter
      if l1.isEmpty then
        ({ s with image_list := l1 }, fs1, trash2)
      else
        (reload_image ⟨l1, s.image_iter % l1.length, s.tag_list⟩, fs1, trash2)

/-- A non-empty list is not `isEmpty`. -/
theorem isEmpty_false_of_lt {l : List MItem} {i : Nat} (h : i < l.length) :
    l.isEmpty = false := by
  cases l with
  | nil => simp at h
  | cons a t => rfl

/-- `reload_image` on the empty session list is a no-op. -/
theorem reload_image_nil (i : Nat) (t : List PStr) :
    reload_image ⟨[], i, t⟩ = ⟨[], i, t⟩ := by
  rw [reload_image]
  rfl

/-- `reload_image` when the current item is missing on disk: pop it,
reset the index, retry. -/
theorem reload_image_missing (s : WState) (h : s.image_iter < s.image_list.length)
    (hm : s.image_list[s.image_iter].onDisk = false) :
    reload_image s = reload_image ⟨s.image_list.eraseIdx s.image_iter, 0, s.tag_list⟩ := by
  rw [reload_image]
  rw [if_neg (by simp [isEmpty_false_of_lt h]), dif_pos h]
  simp only [hm, Bool.not_false, if_pos]

/-- `reload_image` when the current item exists but fails to open: reload
its tags, pop it, reset the index, retry. -/
theorem reload_image_unreadable (s : WState) (h : s.image_iter < s.image_list.length)
    (hd : s.image_list[s.image_iter].onDisk = true)
    (ho : s.image_list[s.image_iter].openable = false) :
    reload_image s =
      reload_image ⟨s.image_list.eraseIdx s.image_iter, 0,
        s.image_list[s.image_iter].tags⟩ := by
  rw [reload_image]
  rw [if_neg (by simp [isEmpty_false_of_lt h]), dif_pos h]
  simp only [hd, ho, Bool.not_true, Bool.not_false, if_pos, if_neg]
  simp

/-- `reload_image` when the current item loads: only the tag list is
refreshed. -/
theorem reload_image_valid (s : WState) (h : s.image_iter < s.image_list.length)
    (hd : s.image_list[s.image_iter].onDisk = true)
    (ho : s.image_list[s.image_iter].openable = true) :
    reload_image s = { s with tag_list := s.image_list[s.image_iter].tags } := by
  rw [reload_image]
  rw [if_neg (by simp [isEmpty_false_of_lt h]), dif_pos h]
  simp [hd, ho]

/-- `reload_image` always lands on the empty list or on a loadable
current item. -/
theorem reload_image_result (s : WState) :
    s.image_iter < s.image_list.length ∨ s.image_list = [] →
      (reload_image s).image_list = [] ∨
        ∃ it, (reload_image s).image_list[(reload_image s).image_iter]? = some it ∧
          it.onDisk = true ∧ it.openable = true := by
  induction s using reload_image.induct with
  | case1 x hE =>
    intro _
    rw [reload_image, if_pos hE]
    exact Or.inl (List.isEmpty_iff.mp hE)
  | case2 x hE h it hmiss ih =>
    intro _
    rw [reload_image_missing x h (by simpa using hmiss)]
    refine ih ?_
    cases hc : x.image_list.eraseIdx x.image_iter with
    | nil => exact Or.inr rfl
    | cons a t => exact Or.inl (by simp [hc])
  | case3 x hE h it hdisk hopen ih =>
    intro _
    rw [reload_image_unreadable x h (by simpa using hdisk) (by simpa using hopen)]
    refine ih ?_
    cases hc : x.image_list.eraseIdx x.image_iter with
    | nil => exact Or.inr rfl
    | cons a t => exact Or.inl (by simp [hc])
  | case4 x hE h it hdisk hopen =>
    intro _
    rw [reload_image_valid x h (by simpa using hdisk) (by simpa using hopen)]
    exact Or.inr ⟨x.image_list[x.image_iter],
      List.getElem?_eq_getElem h, by simpa using hdisk, by simpa using hopen⟩
  | case5 x hE h =>
    intro hc
    rcases hc with hc | hc
    · exact absurd hc h
    · exact absurd (List.isEmpty_iff.mpr hc) (by simpa using hE)

/-- C7: every failure to open the current media removes exactly that
entry, resets the index to 0 and retries; the recursion bottoms out at the
empty list, where reload is a no-op, and always lands on the empty list or
on a loadable current item; on a list whose item 0 is corrupt and item 1
is valid, item 1 becomes current after one reload cycle with item 0
removed. -/
theorem claim_C7 :
    (∀ (i : Nat) (t : List PStr), reload_image ⟨[], i, t⟩ = ⟨[], i, t⟩) ∧
    (∀ s : WState, ∀ h : s.image_iter < s.image_list.length,
      s.image_list[s.image_iter].onDisk = false →
      reload_image s =
        reload_image ⟨s.image_list.eraseIdx s.image_iter, 0, s.tag_list⟩) ∧
    (∀ s : WState, ∀ h : s.image_iter < s.image_list.length,
      s.image_list[s.image_iter].onDisk = true →
      s.image_list[s.image_iter].openable = false →
      reload_image s =
        reload_image ⟨s.image_list.eraseIdx s.image_iter, 0,
          s.image_list[s.image_iter].tags⟩) ∧
    (∀ s : WState, s.image_iter < s.image_list.length ∨ s.image_list = [] →
      (reload_image s).image_list = [] ∨
        ∃ it, (reload_image s).image_list[(reload_image s).image_iter]? = some it ∧
          it.onDisk = true ∧ it.openable = true) ∧
    (∀ a b : MItem, ∀ t : List PStr, a.onDisk = true → a.openable = false →
      b.onDisk = true → b.openable = true →
      reload_image ⟨[a, b], 0, t⟩ = ⟨[b], 0, b.tags⟩) := by
  refine ⟨reload_image_nil, reload_image_missing, reload_image_unreadable,
    reload_image_result, fun a b t hd ho hbd hbo => ?_⟩
  rw [reload_image_unreadable ⟨[a, b], 0, t⟩ (by simp) hd ho]
  show reload_image ⟨[b], 0, a.tags⟩ = _
  rw [reload_image_valid ⟨[b], 0, a.tags⟩ (by simp) hbd hbo]
  rfl

/-- Witness for C7 at concrete items: a missing one, an unreadable one and
a valid one. -/
theorem claim_C7_witness :
    (reload_image ⟨[], 3, []⟩ = ⟨[], 3, []⟩) ∧
    (reload_image ⟨[⟨"m.png".toList, false, false, []⟩], 0, []⟩
      = reload_image ⟨[], 0, []⟩) ∧
    (reload_image ⟨[⟨"c.png".toList, true, false, []⟩], 0, []⟩
      = reload_image ⟨[], 0, []⟩) ∧
    ((reload_image ⟨[⟨"c.png".toList, true, false, []⟩,
        ⟨"b.png".toList, true, true, ["y".toList]⟩], 0, []⟩).image_list = [] ∨
      ∃ it, (reload_image ⟨[⟨"c.png".toList, true, false, []⟩,
          ⟨"b.png".toList, true, true, ["y".toList]⟩], 0, []⟩).image_list[
            (reload_image ⟨[⟨"c.png".toList, true, false, []⟩,
              ⟨"b.png".toList, true, true, ["y".toList]⟩], 0, []⟩).image_iter]?
          = some it ∧ it.onDisk = true ∧ it.openable = true) ∧
    (reload_image ⟨[⟨"c.png".toList, true, false, []⟩,
        ⟨"b.png".toList, true, true, ["y".toList]⟩], 0, []⟩
      = ⟨[⟨"b.png".toList, true, true, ["y".toList]⟩], 0, ["y".toList]⟩) :=
  ⟨claim_C7.1 3 [],
   claim_C7.2.1 ⟨[⟨"m.png".toList, false, false, []⟩], 0, []⟩ (by decide) (by decide),
   claim_C7.2.2.1 ⟨[⟨"c.png".toList, true, false, []⟩], 0, []⟩ (by decide)
     (by decide) (by decide),
   claim_C7.2.2.2.1 ⟨[⟨"c.png".toList, true, false, []⟩,
     ⟨"b.png".toList, true, true, ["y".toList]⟩], 0, []⟩ (Or.inl (by decide)),
   claim_C7.2.2.2.2 ⟨"c.png".toList, true, false, []⟩
     ⟨"b.png".toList, true, true, ["y".toList]⟩ [] (by decide) (by decide)
     (by decide) (by decide)⟩

/-- Unfolding equation for the seek loop. -/
theorem seekLoop_eq (s : WState) :
    seekLoop s =
      if s.image_iter < s.image_list.length ∧ scored s.tag_list = true then
        match s.image_list[s.image_iter + 1]? with
        | some it =>
          seekLoop { s with image_iter := s.image_iter + 1, tag_list := it.tags }
        | none => .error { s with image_iter := s.image_iter + 1 }
      else .ok s := by
  rw [seekLoop]
  simp only [dite_eq_ite]

/-- A three-item session: items 0 and 1 untagged, item 2 scored. -/
def seekDemoItems : List MItem :=
  [⟨"a.png".toList, true, true, []⟩,
   ⟨"b.png".toList, true, true, []⟩,
   ⟨"c.png".toList, true, true, ["score__5".toList]⟩]

/-- A one-item session whose only item is scored. -/
def seekSoloItems : List MItem :=
  [⟨"a.png".toList, true, true, ["score__3".toList]⟩]

/-- C8: evaluating `handle_seek` on `seekDemoItems` with current index 2
(the scored item): the handler ends at index 1, although the first item
lacking a reserved score tag is index 0 — the loop's first test reads the
stale tag list of the previously current item and item 0's tags are never
examined, contradicting the claim (and the docstring "search for first
media without score"). -/
theorem claim_C8 :
    handle_seek ⟨seekDemoItems, 2, ["score__5".toList]⟩
      = .ok ⟨seekDemoItems, 1, []⟩ ∧
    seekDemoItems.findIdx (fun it => !scored it.tags) = 0 := by
  refine ⟨?_, by decide⟩
  have e1 : seekLoop ⟨seekDemoItems, 0, ["score__5".toList]⟩
      = seekLoop ⟨seekDemoItems, 1, []⟩ := by
    rw [seekLoop_eq, if_pos (by decide)]
    rfl
  have e2 : seekLoop ⟨seekDemoItems, 1, []⟩ = .ok ⟨seekDemoItems, 1, []⟩ := by
    rw [seekLoop_eq, if_neg (by decide)]
  show (match seekLoop ⟨seekDemoItems, 0, ["score__5".toList]⟩ with
        | .error e => (Except.error e : Except WState WState)
        | .ok s1 => .ok (reload_image (reload_tagsF
            { s1 with image_iter := s1.image_iter % s1.image_list.length })))
      = .ok ⟨seekDemoItems, 1, []⟩
  rw [e1, e2]
  show Except.ok (reload_image (reload_tagsF ⟨seekDemoItems, 1, []⟩)) = _
  rw [show reload_tagsF ⟨seekDemoItems, 1, []⟩ = ⟨seekDemoItems, 1, []⟩ from by decide]
  rw [reload_image_valid ⟨seekDemoItems, 1, []⟩ (by decide) (by decide) (by decide)]
  rfl

/-- C10: evaluating `handle_seek` on the all-scored one-item session: the
loop advances the index past the end, the `reload_tags` call inside the
loop performs an out-of-range `image_list[1]` access (an uncaught
`IndexError`), and the handler exits with `image_iter = 1 =
len(image_list)` — outside `[0, len)` — violating the claimed invariant. -/
theorem claim_C10 :
    handle_seek ⟨seekSoloItems, 0, ["score__3".toList]⟩
      = .error ⟨seekSoloItems, 1, ["score__3".toList]⟩ ∧
    ¬ (1 < seekSoloItems.length) := by
  refine ⟨?_, by decide⟩
  have e1 : seekLoop ⟨seekSoloItems, 0, ["score__3".toList]⟩
      = .error ⟨seekSoloItems, 1, ["score__3".toList]⟩ := by
    rw [seekLoop_eq, if_pos (by decide)]
    rfl
  show (match seekLoop ⟨seekSoloItems, 0, ["score__3".toList]⟩ with
        | .error e => (Except.error e : Except WState WState)
        | .ok s1 => .ok (reload_image (reload_tagsF
            { s1 with image_iter := s1.image_iter % s1.image_list.length })))
      = .error ⟨seekSoloItems, 1, ["score__3".toList]⟩
  rw [e1]

/-- C9: a confirmed delete on an M-item session (M ≥ 1, healthy items)
sends the current file — and its sidecar when present — to the trash,
removes the entry (M-1 items remain), and clamps the index into
[0, M-2]; when M = 1 the result is the empty-list no-op state. -/
theorem claim_C9 (s : WState) (fs : FS) (trash : List PStr)
    (hix : s.image_iter < s.image_list.length)
    (hall : ∀ it ∈ s.image_list, it.onDisk = true ∧ it.openable = true) :
    ((handle_delete true s fs trash).2.2 =
      (trash ++ [s.image_list[s.image_iter].path]) ++
        (if (lookupFS fs (sidecarPath s.image_list[s.image_iter].path)).isSome
         then [sidecarPath s.image_list[s.image_iter].path] else [])) ∧
    ((handle_delete true s fs trash).1.image_list.length
      = s.image_list.length - 1) ∧
    (s.image_list.length = 1 →
      (handle_delete true s fs trash).1 = ⟨[], 0, s.tag_list⟩) ∧
    (2 ≤ s.image_list.length →
      (handle_delete true s fs trash).1.image_iter < s.image_list.length - 1) := by
  have hne : s.image_list.isEmpty = false := isEmpty_false_of_lt hix
  have hcur := List.getElem?_eq_getElem hix
  have hl1 := List.length_eraseIdx_add_one hix
  simp only [handle_delete, hne, Bool.false_eq_true, if_false, Bool.not_true, hcur]
  by_cases hM : (s.image_list.eraseIdx s.image_iter).isEmpty = true
  · have hM0 : (s.image_list.eraseIdx s.image_iter).length = 0 := by
      simp [List.isEmpty_iff.mp hM]
    simp only [hM, if_true]
    refine ⟨by by_cases hsc :
        (lookupFS fs (sidecarPath s.image_list[s.image_iter].path)).isSome
          = true <;> simp [hsc], ?_, fun h1 => ?_, fun h2 => absurd h2 (by omega)⟩
    · show (s.image_list.eraseIdx s.image_iter).length = s.image_list.length - 1
      omega
    · have hiter : s.image_iter = 0 := by omega
      show ({ s with image_list := s.image_list.eraseIdx s.image_iter } : WState)
        = ⟨[], 0, s.tag_list⟩
      rw [List.isEmpty_iff.mp hM, hiter]
  · have hM0 : 0 < (s.image_list.eraseIdx s.image_iter).length := by
      cases hc : s.image_list.eraseIdx s.image_iter with
      | nil => rw [hc] at hM; simp at hM
      | cons a t => simp [hc]
    simp only [hM, if_false]
    have hmod : s.image_iter % (s.image_list.eraseIdx s.image_iter).length
        < (s.image_list.eraseIdx s.image_iter).length := Nat.mod_lt _ hM0
    have hmem : (s.image_list.eraseIdx s.image_iter)[
        s.image_iter % (s.image_list.eraseIdx s.image_iter).length] ∈
        s.image_list :=
      List.eraseIdx_subset _ _ (List.getElem_mem hmod)
    have hv := hall _ hmem
    rw [reload_image_valid ⟨s.image_list.eraseIdx s.image_iter,
      s.image_iter % (s.image_list.eraseIdx s.image_iter).length, s.tag_list⟩
      hmod hv.1 hv.2]
    refine ⟨by by_cases hsc :
        (lookupFS fs (sidecarPath s.image_list[s.image_iter].path)).isSome
          = true <;> simp [hsc], ?_, fun h1 => absurd h1 (by omega), fun h2 => ?_⟩
    · show (s.image_list.eraseIdx s.image_iter).length = s.image_list.length - 1
      omega
    · show s.image_iter % (s.image_list.eraseIdx s.image_iter).length
        < s.image_list.length - 1
      omega

/-- A two-item healthy session, current index 1, whose current item has a
sidecar on disk. -/
def delDemoState : WState :=
  ⟨[⟨"a.png".toList, true, true, []⟩, ⟨"b.png".toList, true, true, []⟩], 1, []⟩

/-- The sidecar store for `delDemoState`: `b.json` exists. -/
def delDemoFS : FS := [("b.json".toList, .malformed)]

/-- Witness for C9: deleting item 1 of the two-item session trashes
`b.png` and `b.json`, leaves one item, and clamps the index to 0. -/
theorem claim_C9_witness :
    (handle_delete true delDemoState delDemoFS []).2.2
        = ["b.png".toList, "b.json".toList] ∧
    (handle_delete true delDemoState delDemoFS []).1.image_list.length = 1 ∧
    (handle_delete true delDemoState delDemoFS []).1.image_iter < 1 := by
  refine ⟨?_, ?_, ?_⟩
  · rw [(claim_C9 delDemoState delDemoFS [] (by decide) (by decide)).1]
    decide
  · rw [(claim_C9 delDemoState delDemoFS [] (by decide) (by decide)).2.1]
    decide
  · exact (claim_C9 delDemoState delDemoFS [] (by decide) (by decide)).2.2.2
      (by decide)

end ImgTag
